import Mathlib

/-!
Shallow embedding of the AstherusVault contract (src/contract.sol) and proofs
checking the repository specification against it.

Modelling conventions:
* 160-bit addresses and 256-bit words are represented by natural numbers; the
  zero address is the literal 0.  Solidity 0.8 checked subtraction is modelled
  explicitly where an underflow is reachable (the payout helper); additions and
  multiplications of monetary quantities are modelled over unbounded naturals.
* Content hashes (keccak256 of abi-encoded data) are treated as injective, so a
  mapping keyed by the hash of a validator list is modelled as a mapping keyed
  by the list itself.
* External collaborators (ERC20 tokens, the price oracle, signature recovery,
  the withdraw-request validator, yield modules) are supplied by an `Env`
  record, following the boundary interfaces of the specification: a signature
  recovery returns the zero address on failure, token pulls report the delta
  actually delivered, oracle reads return a signed word.
* Every state-mutating entry point is a function `... → VaultState → Except
  VaultError ...`; an `Except.error` outcome models a reverted transaction, so
  the pre-state is retained unchanged by the caller.  Role checks are performed
  by an external authority and are outside the modelled core, as are the
  upgrade/initializer mechanics.
-/

namespace AstherusVault

/-- Account / contract addresses (160-bit words); 0 is the zero address. -/
abbrev Addr := Nat

/-- 32-byte words used as content hashes and digests. -/
abbrev Hash := Nat

/-- Raw signature blobs; only ever passed to the recovery primitive. -/
abbrev Sig := Nat

/-- Opaque signature bundle forwarded to the external withdraw validator. -/
abbrev SigInfo := Nat

/-- USD valuation precision, `USD_DECIMALS` in the contract. -/
def USD_DECIMALS : Nat := 8

/-- The sentinel address used for the native currency,
`address(bytes20(keccak256("NATIVE")))` in the contract.  Only its fixedness
and the fact that it is nonzero matter to the model, so a fixed nonzero
constant stands in for the hash value. -/
def NATIVE : Addr := 2 ^ 159 + 77377

/-- A registered token descriptor, struct `Token` of the contract.  A
descriptor whose `currency` field is the zero address is the empty slot of the
`supportToken` mapping. -/
structure Token where
  currency : Addr
  priceFeed : Addr
  price : Nat
  fixedPrice : Bool
  priceDecimals : Nat
  currencyDecimals : Nat
  deriving DecidableEq

/-- The all-zero token slot produced by `delete supportToken[currency]`. -/
def Token.empty : Token :=
  { currency := 0, priceFeed := 0, price := 0, fixedPrice := false
    priceDecimals := 0, currencyDecimals := 0 }

/-- One validator entry: a signer address and its voting power. -/
structure ValidatorInfo where
  signer : Addr
  power : Nat
  deriving DecidableEq

/-- Payload of the committee-authorized withdrawal, struct `WithdrawAction`. -/
structure WithdrawAction where
  token : Addr
  amount : Nat
  fee : Nat
  receiver : Addr
  deriving DecidableEq

/-- The fields of `IAsterWithdrawValidator.UserRequestInfo` that the vault
itself reads (`amount`, `fee`, `receiver`); further fields of the external
interface are only consumed by the external validator and are irrelevant to
the vault's own state transitions. -/
structure UserRequestInfo where
  amount : Nat
  fee : Nat
  receiver : Addr
  deriving DecidableEq

/-- The fields of `IAsterWithdrawValidator.BusinessInfo` read by the vault:
the business withdrawal id, the declared token decimals and the declared
token-name hash. -/
structure BusinessInfo where
  withdrawId : Nat
  decimals : Nat
  tokenNameHash : Hash
  deriving DecidableEq

/-- Failure outcomes.  Custom errors of the contract keep their names;
`requireFail` carries the message of a failed `require`; `enforcedPause` is
the OpenZeppelin Pausable rejection; `arithUnderflow` is the Solidity 0.8
checked-arithmetic panic (code 0x11); `transferFailed` is a push rejected by
the currency for lack of custody balance. -/
inductive VaultError where
  | requireFail (msg : String)
  | enforcedPause
  | expectedPause
  | zeroAddress
  | zeroAmount
  | tokenAlreadyExist
  | currencyNotSupport (currency : Addr)
  | valueNotZero
  | lowerThanExpected (expected actual : Nat)
  | asBnbActivitiesOnGoing
  | amountIllegal (supported actual : Nat)
  | alreadyWithdraw (withdrawId : Nat)
  | userAlreadyWithdraw (userDigest : Hash)
  | feeExceeds (real maxFee : Nat)
  | currencyNameNotSupport (token : Addr) (nameHash : Hash)
  | priceDecimalsMismatch (expected actual : Nat)
  | arithUnderflow
  | transferFailed
  deriving DecidableEq

/-- Pointwise update of a map modelled as a function. -/
def upd {α β : Type} [DecidableEq α] (f : α → β) (a : α) (b : β) : α → β :=
  fun x => if x = a then b else f x

theorem upd_same {α β : Type} [DecidableEq α] (f : α → β) (a : α) (b : β) :
    upd f a b a = b := by simp [upd]

theorem upd_ne {α β : Type} [DecidableEq α] (f : α → β) (a : α) (b : β)
    (x : α) (h : x ≠ a) : upd f a b x = f x := by simp [upd, h]

/-- The mutable storage of the vault contract.  `custody` is the balance of
each currency held by the vault (the native balance is kept at the `NATIVE`
key), maintained alongside the contract's own storage because deposit and
withdrawal accounting observe it. -/
structure VaultState where
  paused : Bool
  hourlyLimit : Nat
  supportToken : Addr → Token
  withdrawHistory : Nat → Nat
  withdrawPerHours : Nat → Nat
  availableValidators : List ValidatorInfo → Nat
  fees : Addr → Nat
  tokenHashMap : Addr → Hash
  userWithdrawHistory : Hash → Nat
  custody : Addr → Nat

/-- External world supplied to an invocation: block context, collaborator
behaviour and the immutable collaborator addresses fixed at construction. -/
structure Env where
  blockNumber : Nat
  timestamp : Nat
  /-- Price returned by `latestRoundData` of a feed, as a signed 256-bit
  word. -/
  oraclePrice : Addr → Int
  /-- `decimals()` of a price feed. -/
  oracleDecimals : Addr → Nat
  /-- Signature recovery over the eth-signed wrapping of a digest, per the
  boundary interface: returns the recovered identity, or the zero address for
  a failed recovery. -/
  recover : Hash → Sig → Addr
  /-- keccak256 of the abi-encoded committee withdrawal payload
  `(id, chainid, address(this), token, amount, fee, receiver)`; the chain id
  and vault identity are fixed inside the environment. -/
  mkDigest : Nat → WithdrawAction → Hash
  /-- Delta actually delivered to the vault when pulling the requested amount
  of a token from the caller (`safeTransferFrom` measured before/after). -/
  erc20Pull : Addr → Nat → Nat
  /-- The external withdraw-request validator: either rejects or returns the
  user digest. -/
  withdrawCheck : UserRequestInfo → BusinessInfo → SigInfo → Except VaultError Hash
  /-- USDF minted to the vault by the earn module for a deposited USDT
  amount. -/
  usdfEarnOut : Nat → Nat
  /-- USDT drawn out of the vault by the earn module for a deposited USDT
  amount. -/
  usdfEarnTake : Nat → Nat
  /-- AsBNB minted for a native-value mint. -/
  asBnbOutNative : Nat → Nat
  /-- AsBNB minted for a slisBNB mint. -/
  asBnbOutSlis : Nat → Nat
  /-- slisBNB drawn by the minter for a slisBNB mint. -/
  slisMinterTake : Nat → Nat
  /-- `YIELD_PROXY.activitiesOnGoing()`. -/
  activitiesOnGoing : Bool
  usdtAddr : Addr
  usdfAddr : Addr
  slisBnbAddr : Addr
  asBnbAddr : Addr

/-- `_supportCurrency`: a currency is supported when its descriptor slot is
occupied. -/
def supportCurrency (s : VaultState) (currency : Addr) : Bool :=
  (s.supportToken currency).currency != 0

/-- `pause()` (body `_pause` of OpenZeppelin Pausable). -/
def pauseOp (s : VaultState) : Except VaultError VaultState :=
  if s.paused then .error .enforcedPause
  else .ok { s with paused := true }

/-- `unpause()` (body `_unpause`). -/
def unpauseOp (s : VaultState) : Except VaultError VaultState :=
  if s.paused then .ok { s with paused := false }
  else .error .expectedPause

/-- `updateHourlyLimit`. -/
def updateHourlyLimit (s : VaultState) (newHourlyLimit : Nat) :
    Except VaultError VaultState :=
  if newHourlyLimit = 0 then .error .zeroAmount
  else .ok { s with hourlyLimit := newHourlyLimit }

/-- The ordering check of the `addValidator` loop: every signer must be
strictly greater than the previous one, starting from the zero address. -/
def ordered (lastValidator : Addr) : List ValidatorInfo → Bool
  | [] => true
  | v :: rest => decide (lastValidator < v.signer) && ordered v.signer rest

/-- The power accumulation of the `addValidator` loop. -/
def totalPowerOf (validators : List ValidatorInfo) : Nat :=
  (validators.map (fun v => v.power)).sum

/-- `addValidator`: registers the content hash of an ordered validator set,
mapping it to the set's total power. -/
def addValidator (s : VaultState) (validators : List ValidatorInfo) :
    Except VaultError VaultState :=
  if s.availableValidators validators ≠ 0 then
    .error (.requireFail "already set")
  else if ordered 0 validators = false then
    .error (.requireFail "validator not ordered")
  else
    .ok { s with
          availableValidators :=
            upd s.availableValidators validators (totalPowerOf validators) }

/-- `removeValidator`. -/
def removeValidator (s : VaultState) (validators : List ValidatorInfo) :
    Except VaultError VaultState :=
  if s.availableValidators validators = 0 then
    .error (.requireFail "not set")
  else
    .ok { s with availableValidators := upd s.availableValidators validators 0 }

/-- Inner `while` of `verifyValidatorSignature`: advance through the claimed
validator list until the recovered signer is matched (returning its power and
the unconsumed suffix) or the list is exhausted. -/
def seekSigner (r : Addr) : List ValidatorInfo → Option (Nat × List ValidatorInfo)
  | [] => none
  | v :: rest => if v.signer = r then some (v.power, rest) else seekSigner r rest

/-- The signature/validator matching loop of `verifyValidatorSignature`: one
cursor walks the validator list while the signatures are scanned in order; a
failed recovery (zero address) is skipped; once the cursor exhausts the
validator list the remaining signatures are ignored. -/
def tallyPower (recover : Sig → Addr) :
    List ValidatorInfo → List Sig → Nat
  | _, [] => 0
  | [], _ => 0
  | v :: vs, sig :: sigs =>
    let r := recover sig
    if r = 0 then tallyPower recover (v :: vs) sigs
    else
      match seekSigner r (v :: vs) with
      | none => 0
      | some (p, rest) => p + tallyPower recover rest sigs

/-- `verifyValidatorSignature`: requires the claimed set to be registered with
nonzero total power, then requires the matched power to reach the fixed
two-thirds floor threshold. -/
def verifyValidatorSignature (env : Env) (s : VaultState)
    (validators : List ValidatorInfo) (digest : Hash) (sigs : List Sig) :
    Except VaultError Unit :=
  let totalPower := s.availableValidators validators
  if totalPower = 0 then .error (.requireFail "validator illegal")
  else if totalPower * 2 / 3 ≤ tallyPower (env.recover digest) validators sigs then
    .ok ()
  else .error (.requireFail "validator signature illegal")

/-- The private three-argument `_transfer` helper used by fee collection:
rejects a zero receiver and a zero amount, then pushes the amount out of
custody.  For a token currency the explicit balance `require` of the source
applies; for the native currency the send primitive itself rejects an
insufficient balance — both are the same custody condition here. -/
def transferOut (s : VaultState) (dst : Addr) (isNative : Bool)
    (currency : Addr) (amount : Nat) : Except VaultError VaultState :=
  if dst = 0 then .error .zeroAddress
  else if amount = 0 then .error .zeroAmount
  else if isNative then
    if s.custody currency < amount then .error .transferFailed
    else .ok { s with custody := upd s.custody currency (s.custody currency - amount) }
  else
    if s.custody currency < amount then .error (.requireFail "not enough currency balance")
    else .ok { s with custody := upd s.custody currency (s.custody currency - amount) }

/-- Body of the `withdrawFee` loop over the token/amount pairs. -/
def withdrawFeeGo (receiver : Addr) :
    VaultState → List (Addr × Nat) → Except VaultError VaultState
  | s, [] => .ok s
  | s, (token, requested) :: rest =>
    let availableFee := s.fees token
    let amount := if availableFee < requested then availableFee else requested
    match transferOut s receiver (token == NATIVE) token amount with
    | .error e => .error e
    | .ok s1 =>
      withdrawFeeGo receiver
        { s1 with fees := upd s1.fees token (s1.fees token - amount) } rest

/-- `withdrawFee`: admin fee collection; each requested amount is clamped to
the accrued fee pool of its currency before being paid out. -/
def withdrawFee (s : VaultState) (tokens : List Addr) (amounts : List Nat)
    (receiver : Addr) : Except VaultError VaultState :=
  if tokens.length ≠ amounts.length then .error (.requireFail "illegal num")
  else withdrawFeeGo receiver s (tokens.zip amounts)

/-- Six-argument `addToken`: one-time registration of a token descriptor. -/
def addToken (env : Env) (s : VaultState) (currency priceFeed : Addr)
    (price : Nat) (fixedPrice : Bool) (priceDecimals currencyDecimals : Nat) :
    Except VaultError VaultState :=
  if currency = 0 then .error .zeroAddress
  else if (s.supportToken currency).currency ≠ 0 then .error .tokenAlreadyExist
  else if fixedPrice then
    .ok { s with
          supportToken := upd s.supportToken currency
            { currency := currency, priceFeed := 0, price := price,
              fixedPrice := fixedPrice, priceDecimals := priceDecimals,
              currencyDecimals := currencyDecimals } }
  else if priceFeed = 0 then .error .zeroAddress
  else if env.oracleDecimals priceFeed ≠ priceDecimals then
    .error (.priceDecimalsMismatch priceDecimals (env.oracleDecimals priceFeed))
  else
    .ok { s with
          supportToken := upd s.supportToken currency
            { currency := currency, priceFeed := priceFeed, price := 0,
              fixedPrice := fixedPrice, priceDecimals := priceDecimals,
              currencyDecimals := currencyDecimals } }

/-- Seven-argument `addToken`: registration plus name-hash binding.  The token
name enters the state only through its keccak hash, so the hash itself is the
parameter. -/
def addTokenNamed (env : Env) (s : VaultState) (currency priceFeed : Addr)
    (price : Nat) (fixedPrice : Bool) (priceDecimals currencyDecimals : Nat)
    (nameHash : Hash) : Except VaultError VaultState :=
  match addToken env s currency priceFeed price fixedPrice priceDecimals currencyDecimals with
  | .error e => .error e
  | .ok s1 => .ok { s1 with tokenHashMap := upd s1.tokenHashMap currency nameHash }

/-- `removeToken`: clears the descriptor slot of a currency.  The source only
rejects the zero address; there is no registration check. -/
def removeToken (s : VaultState) (currency : Addr) :
    Except VaultError VaultState :=
  if currency = 0 then .error .zeroAddress
  else .ok { s with supportToken := upd s.supportToken currency Token.empty }

/-- `setTokenHash`: rebinds the name hash of a registered token. -/
def setTokenHash (s : VaultState) (tokenAddress : Addr) (nameHash : Hash) :
    Except VaultError VaultState :=
  if (s.supportToken tokenAddress).currency = 0 then
    .error (.currencyNotSupport tokenAddress)
  else .ok { s with tokenHashMap := upd s.tokenHashMap tokenAddress nameHash }

/-- The private four-argument `_transfer` helper used by both withdrawal
variants: accrues the fee to the currency's pool and pushes `amount - fee` to
the receiver.  The subtraction is Solidity 0.8 checked arithmetic, so a fee
above the amount aborts with an underflow panic; an `Except.error` models the
reverted transaction, discarding the fee accrual. -/
def transferWithFee (s : VaultState) (dst : Addr) (currency : Addr)
    (amount fee : Nat) : Except VaultError VaultState :=
  if dst = 0 then .error .zeroAddress
  else
    let s1 := { s with fees := upd s.fees currency (s.fees currency + fee) }
    if amount < fee then .error .arithUnderflow
    else
      let remain := amount - fee
      if s1.custody currency < remain then .error .transferFailed
      else .ok { s1 with custody := upd s1.custody currency (s1.custody currency - remain) }

/-- `deposit`: pulls the requested amount from the caller and credits (emits)
the measured custody delta, not the request.  The second component of the
result is the amount recorded by the `Deposit` event. -/
def deposit (env : Env) (s : VaultState) (currency : Addr) (amount : Nat) :
    Except VaultError (VaultState × Nat) :=
  if supportCurrency s currency = false then
    .error (.requireFail "currency not support")
  else if amount = 0 then .error .zeroAmount
  else
    let beforeBal := s.custody currency
    let afterBal := beforeBal + env.erc20Pull currency amount
    .ok ({ s with custody := upd s.custody currency afterBal }, afterBal - beforeBal)

/-- `depositNative`. -/
def depositNative (s : VaultState) (msgValue : Nat) :
    Except VaultError (VaultState × Nat) :=
  if supportCurrency s NATIVE = false then
    .error (.requireFail "currency not support")
  else if msgValue = 0 then
    .error (.requireFail "msg.value must be greater than 0")
  else
    .ok ({ s with custody := upd s.custody NATIVE (s.custody NATIVE + msgValue) },
         msgValue)

/-- `depositFor`: deposit on behalf of another address; unlike `deposit` this
path rejects a pull that moves a different amount than requested. -/
def depositFor (env : Env) (s : VaultState) (currency forAddress : Addr)
    (amount msgValue : Nat) : Except VaultError (VaultState × Nat) :=
  if supportCurrency s currency = false then
    .error (.currencyNotSupport currency)
  else if amount = 0 then .error .zeroAmount
  else if currency = NATIVE then
    if amount ≠ msgValue then .error (.amountIllegal amount msgValue)
    else
      .ok ({ s with custody := upd s.custody NATIVE (s.custody NATIVE + msgValue) },
           amount)
  else if msgValue ≠ 0 then .error .valueNotZero
  else
    let delta := env.erc20Pull currency amount
    if amount ≠ delta then .error (.amountIllegal amount delta)
    else
      .ok ({ s with custody := upd s.custody currency (s.custody currency + delta) },
           amount)

/-- `depositUSDF`: pulls USDT, converts it through the earn module and credits
the measured USDF delta.  The earn module's draw on the vault's USDT is
environment-determined and cannot exceed the vault's balance. -/
def depositUSDF (env : Env) (s : VaultState) (usdtAmount minUsdfAmount : Nat) :
    Except VaultError (VaultState × Nat) :=
  if supportCurrency s env.usdfAddr = false then
    .error (.currencyNotSupport env.usdfAddr)
  else
    let usdtReceived := env.erc20Pull env.usdtAddr usdtAmount
    let s1 := { s with custody := upd s.custody env.usdtAddr (s.custody env.usdtAddr + usdtReceived) }
    let usdfReceived := env.usdfEarnOut usdtReceived
    let usdtTaken := min (env.usdfEarnTake usdtReceived) (s1.custody env.usdtAddr)
    let s2 := { s1 with custody := upd s1.custody env.usdtAddr (s1.custody env.usdtAddr - usdtTaken) }
    let s3 := { s2 with custody := upd s2.custody env.usdfAddr (s2.custody env.usdfAddr + usdfReceived) }
    if usdfReceived = 0 then .error .zeroAmount
    else if usdfReceived < minUsdfAmount then
      .error (.lowerThanExpected minUsdfAmount usdfReceived)
    else .ok (s3, usdfReceived)

/-- `depositAsBNB`: converts native value or slisBNB into AsBNB through the
minter and credits the measured AsBNB delta. -/
def depositAsBNB (env : Env) (s : VaultState) (currency : Addr)
    (tokenAmount minAsBnbAmount msgValue : Nat) :
    Except VaultError (VaultState × Nat) :=
  if supportCurrency s env.asBnbAddr = false then
    .error (.currencyNotSupport env.asBnbAddr)
  else if env.activitiesOnGoing then .error .asBnbActivitiesOnGoing
  else
    let s0 := { s with custody := upd s.custody NATIVE (s.custody NATIVE + msgValue) }
    match
      (if currency = NATIVE then
        if msgValue ≠ tokenAmount then
          .error (.lowerThanExpected tokenAmount msgValue)
        else
          .ok ({ s0 with custody := upd s0.custody NATIVE (s0.custody NATIVE - msgValue) },
               env.asBnbOutNative msgValue)
      else if currency = env.slisBnbAddr then
        if msgValue ≠ 0 then .error .valueNotZero
        else
          let slisReceived := env.erc20Pull env.slisBnbAddr tokenAmount
          let s1 := { s0 with custody := upd s0.custody env.slisBnbAddr (s0.custody env.slisBnbAddr + slisReceived) }
          let slisTaken := min (env.slisMinterTake slisReceived) (s1.custody env.slisBnbAddr)
          .ok ({ s1 with custody := upd s1.custody env.slisBnbAddr (s1.custody env.slisBnbAddr - slisTaken) },
               env.asBnbOutSlis slisReceived)
      else .error (.currencyNotSupport currency) :
        Except VaultError (VaultState × Nat))
    with
    | .error e => .error e
    | .ok (s2, asBnbReceived) =>
      let s3 := { s2 with custody := upd s2.custody env.asBnbAddr (s2.custody env.asBnbAddr + asBnbReceived) }
      if asBnbReceived = 0 then .error .zeroAmount
      else if asBnbReceived < minAsBnbAmount then
        .error (.lowerThanExpected minAsBnbAmount asBnbReceived)
      else .ok (s3, asBnbReceived)

/-- `receive()`: accepts native value when the native currency is
registered. -/
def receiveNative (s : VaultState) (msgValue : Nat) :
    Except VaultError VaultState :=
  if supportCurrency s NATIVE = false then
    .error (.currencyNotSupport NATIVE)
  else .ok { s with custody := upd s.custody NATIVE (s.custody NATIVE + msgValue) }

/-- The `uint256` reinterpretation of the signed oracle answer performed by
`uint256(price_)`. -/
def oraclePriceWord (env : Env) (feed : Addr) : Nat :=
  ((env.oraclePrice feed) % ((2 : Int) ^ 256)).toNat

/-- `_amountUsd`: USD valuation of an amount of a currency, using the fixed
price of the descriptor or a fresh oracle read. -/
def amountUsd (env : Env) (s : VaultState) (currency : Addr) (amount : Nat) :
    Nat :=
  let token := s.supportToken currency
  let price := if token.fixedPrice then token.price else oraclePriceWord env token.priceFeed
  price * amount * 10 ^ USD_DECIMALS /
    10 ^ (token.priceDecimals + token.currencyDecimals)

/-- `checkLimit`, the rate limiter / circuit breaker: rejects a zero USD
valuation; pauses the vault and returns `false` when the hour bucket would
exceed the hourly limit; otherwise accumulates the valuation into the bucket
and returns `true`.  The `_pause` call inherits the OpenZeppelin guard that
rejects pausing an already-paused contract; both callers run under
`whenNotPaused`, so they only reach it unpaused. -/
def checkLimit (env : Env) (s : VaultState) (currency : Addr) (amount : Nat) :
    Except VaultError (VaultState × Bool) :=
  let usdValue := amountUsd env s currency amount
  if usdValue = 0 then .error .zeroAmount
  else
    let cursor := env.timestamp / 3600
    if s.hourlyLimit < s.withdrawPerHours cursor + usdValue then
      if s.paused then .error .enforcedPause
      else .ok ({ s with paused := true }, false)
    else
      .ok ({ s with withdrawPerHours := upd s.withdrawPerHours cursor (s.withdrawPerHours cursor + usdValue) },
           true)

/-- The committee-authorized `withdraw` overload. -/
def withdrawCommittee (env : Env) (s : VaultState) (id : Nat)
    (validators : List ValidatorInfo) (action : WithdrawAction)
    (sigs : List Sig) : Except VaultError VaultState :=
  if s.paused then .error .enforcedPause
  else if s.withdrawHistory id ≠ 0 then .error (.requireFail "already withdraw")
  else if supportCurrency s action.token = false then
    .error (.requireFail "currency not support")
  else
    match verifyValidatorSignature env s validators (env.mkDigest id action) sigs with
    | .error e => .error e
    | .ok _ =>
      match checkLimit env s action.token action.amount with
      | .error e => .error e
      | .ok (s1, admitted) =>
        if admitted then
          let s2 := { s1 with withdrawHistory := upd s1.withdrawHistory id env.blockNumber }
          transferWithFee s2 action.receiver action.token action.amount action.fee
        else .ok s1

/-- The user-co-signed `withdraw` overload. -/
def withdrawUser (env : Env) (s : VaultState) (tokenAddress : Addr)
    (realFee : Nat) (u : UserRequestInfo) (b : BusinessInfo) (si : SigInfo) :
    Except VaultError VaultState :=
  if s.paused then .error .enforcedPause
  else if s.withdrawHistory b.withdrawId ≠ 0 then
    .error (.alreadyWithdraw b.withdrawId)
  else
    let token := s.supportToken tokenAddress
    if token.currency = 0 ∨ token.currencyDecimals ≠ b.decimals then
      .error (.currencyNotSupport tokenAddress)
    else if s.tokenHashMap tokenAddress ≠ b.tokenNameHash then
      .error (.currencyNameNotSupport tokenAddress b.tokenNameHash)
    else if u.fee < realFee then .error (.feeExceeds realFee u.fee)
    else
      match checkLimit env s tokenAddress u.amount with
      | .error e => .error e
      | .ok (s1, admitted) =>
        if admitted then
          match env.withdrawCheck u b si with
          | .error e => .error e
          | .ok userDigest =>
            if s1.userWithdrawHistory userDigest ≠ 0 then
              .error (.userAlreadyWithdraw userDigest)
            else
              let s2 := { s1 with
                          withdrawHistory := upd s1.withdrawHistory b.withdrawId env.blockNumber }
              let s3 := { s2 with
                          userWithdrawHistory := upd s2.userWithdrawHistory userDigest env.blockNumber }
              transferWithFee s3 u.receiver tokenAddress u.amount realFee
        else .ok s1

/-- `cancelWithdraw`: consumes a withdrawal id (and optionally a user digest)
without paying out. -/
def cancelWithdraw (env : Env) (s : VaultState) (withdrawId : Nat)
    (userDigest : Hash) : Except VaultError VaultState :=
  if s.withdrawHistory withdrawId ≠ 0 then .error (.alreadyWithdraw withdrawId)
  else
    let s1 := { s with withdrawHistory := upd s.withdrawHistory withdrawId env.blockNumber }
    if userDigest ≠ 0 then
      .ok { s1 with userWithdrawHistory := upd s1.userWithdrawHistory userDigest env.blockNumber }
    else .ok s1

/-- The externally callable state-mutating entry points of the vault, used to
quantify over "every operation". -/
inductive VaultOp where
  | opPause
  | opUnpause
  | opUpdateHourlyLimit (newHourlyLimit : Nat)
  | opAddValidator (validators : List ValidatorInfo)
  | opRemoveValidator (validators : List ValidatorInfo)
  | opWithdrawFee (tokens : List Addr) (amounts : List Nat) (receiver : Addr)
  | opAddToken (currency priceFeed : Addr) (price : Nat) (fixedPrice : Bool)
      (priceDecimals currencyDecimals : Nat)
  | opAddTokenNamed (currency priceFeed : Addr) (price : Nat) (fixedPrice : Bool)
      (priceDecimals currencyDecimals : Nat) (nameHash : Hash)
  | opRemoveToken (currency : Addr)
  | opSetTokenHash (tokenAddress : Addr) (nameHash : Hash)
  | opReceiveNative (msgValue : Nat)
  | opDeposit (currency : Addr) (amount : Nat)
  | opDepositNative (msgValue : Nat)
  | opDepositFor (currency forAddress : Addr) (amount msgValue : Nat)
  | opDepositUSDF (usdtAmount minUsdfAmount : Nat)
  | opDepositAsBNB (currency : Addr) (tokenAmount minAsBnbAmount msgValue : Nat)
  | opWithdrawCommittee (id : Nat) (validators : List ValidatorInfo)
      (action : WithdrawAction) (sigs : List Sig)
  | opWithdrawUser (tokenAddress : Addr) (realFee : Nat) (u : UserRequestInfo)
      (b : BusinessInfo) (si : SigInfo)
  | opCancelWithdraw (withdrawId : Nat) (userDigest : Hash)

/-- One transaction against the vault: dispatch an entry point, discarding the
event payloads of the deposit operations. -/
def step (env : Env) (op : VaultOp) (s : VaultState) :
    Except VaultError VaultState :=
  match op with
  | .opPause => pauseOp s
  | .opUnpause => unpauseOp s
  | .opUpdateHourlyLimit n => updateHourlyLimit s n
  | .opAddValidator vs => addValidator s vs
  | .opRemoveValidator vs => removeValidator s vs
  | .opWithdrawFee tokens amounts receiver => withdrawFee s tokens amounts receiver
  | .opAddToken c pf price fixed pd cd => addToken env s c pf price fixed pd cd
  | .opAddTokenNamed c pf price fixed pd cd nh =>
    addTokenNamed env s c pf price fixed pd cd nh
  | .opRemoveToken c => removeToken s c
  | .opSetTokenHash t nh => setTokenHash s t nh
  | .opReceiveNative v => receiveNative s v
  | .opDeposit c a => (deposit env s c a).map Prod.fst
  | .opDepositNative v => (depositNative s v).map Prod.fst
  | .opDepositFor c f a v => (depositFor env s c f a v).map Prod.fst
  | .opDepositUSDF a m => (depositUSDF env s a m).map Prod.fst
  | .opDepositAsBNB c t m v => (depositAsBNB env s c t m v).map Prod.fst
  | .opWithdrawCommittee id vs action sigs => withdrawCommittee env s id vs action sigs
  | .opWithdrawUser t rf u b si => withdrawUser env s t rf u b si
  | .opCancelWithdraw id d => cancelWithdraw env s id d

/-! Concrete fixtures used by witnesses and counterexamples. -/

/-- A concrete environment: recovery returns the signature value itself (so a
zero signature is a failed recovery), the oracle answers 3 * 10 ^ 8, token
pulls deliver the requested amount, the withdraw validator accepts with user
digest 99. -/
def env0 : Env :=
  { blockNumber := 5
    timestamp := 7200
    oraclePrice := fun _ => 300000000
    oracleDecimals := fun _ => 8
    recover := fun _ sig => sig
    mkDigest := fun _ _ => 1
    erc20Pull := fun _ a => a
    withdrawCheck := fun _ _ _ => .ok 99
    usdfEarnOut := fun a => a
    usdfEarnTake := fun a => a
    asBnbOutNative := fun a => a
    asBnbOutSlis := fun a => a
    slisMinterTake := fun a => a
    activitiesOnGoing := false
    usdtAddr := 11
    usdfAddr := 12
    slisBnbAddr := 13
    asBnbAddr := 14 }

/-- The empty vault state: unpaused, hourly limit zero, nothing registered. -/
def s0 : VaultState :=
  { paused := false
    hourlyLimit := 0
    supportToken := fun _ => Token.empty
    withdrawHistory := fun _ => 0
    withdrawPerHours := fun _ => 0
    availableValidators := fun _ => 0
    fees := fun _ => 0
    tokenHashMap := fun _ => 0
    userWithdrawHistory := fun _ => 0
    custody := fun _ => 0 }

/-- A fixed-price descriptor for currency 5: price 1, price decimals 0,
currency decimals 0, so one unit is valued at 10 ^ 8 USD units. -/
def tokenFive : Token :=
  { currency := 5, priceFeed := 0, price := 1, fixedPrice := true
    priceDecimals := 0, currencyDecimals := 0 }

/-- A single-validator set: signer 9 with power 3. -/
def vSet : List ValidatorInfo := [{ signer := 9, power := 3 }]

/-- State with currency 5 registered and `vSet` registered at power 3. -/
def sReg : VaultState :=
  { s0 with supportToken := upd s0.supportToken 5 tokenFive
            availableValidators := upd s0.availableValidators vSet 3 }

/-- A committee withdrawal action over currency 5: amount 1, fee 0,
receiver 7. -/
def actionFive : WithdrawAction :=
  { token := 5, amount := 1, fee := 0, receiver := 7 }

/-! Claim theorems. -/

/-- C2: for every claimed validator set, digest and signature list,
`verifyThreshold` fails with the quorum-not-registered rejection when the
set's content hash has no registered total power, and otherwise fails with the
insufficient-power rejection exactly when the accumulated matched power is
strictly below `⌊2 * totalPower / 3⌋`; the two-thirds threshold is a fixed
constant of the code, independent of any state. -/
theorem claim2_verify_threshold (env : Env) (s : VaultState)
    (validators : List ValidatorInfo) (digest : Hash) (sigs : List Sig) :
    (s.availableValidators validators = 0 →
      verifyValidatorSignature env s validators digest sigs =
        .error (.requireFail "validator illegal")) ∧
    (s.availableValidators validators ≠ 0 →
      (verifyValidatorSignature env s validators digest sigs =
          .error (.requireFail "validator signature illegal") ↔
        tallyPower (env.recover digest) validators sigs <
          s.availableValidators validators * 2 / 3) ∧
      (verifyValidatorSignature env s validators digest sigs = .ok () ↔
        s.availableValidators validators * 2 / 3 ≤
          tallyPower (env.recover digest) validators sigs)) := by
  unfold verifyValidatorSignature
  refine ⟨fun h => by simp [h], fun h => ?_⟩
  simp only [if_neg h]
  by_cases hle :
      s.availableValidators validators * 2 / 3 ≤
        tallyPower (env.recover digest) validators sigs
  · simp [hle, Nat.not_lt_of_le hle]
  · simp [hle, Nat.lt_of_not_le hle]

/-- C2 witness: with no registration the quorum rejection fires; with `vSet`
registered at total power 3 and no signatures, the matched power 0 is below
the threshold 2 and the insufficient-power rejection fires. -/
theorem claim2_verify_threshold_witness :
    verifyValidatorSignature env0 s0 vSet 1 [] =
      .error (.requireFail "validator illegal") ∧
    verifyValidatorSignature env0 sReg vSet 1 [] =
      .error (.requireFail "validator signature illegal") := by
  refine ⟨(claim2_verify_threshold env0 s0 vSet 1 []).1 (by decide), ?_⟩
  exact ((claim2_verify_threshold env0 sReg vSet 1 []).2 (by decide)).1.mpr
    (by decide)

/-- C9: a validator set whose entry powers sum to zero (such as the empty
set) is accepted by `addSet` provided it is strictly ordered and not yet
present, but the registered total power is zero, which is indistinguishable
from an absent registration: re-adding the same set succeeds instead of
failing with the already-set rejection, removing it fails with the not-set
rejection, and threshold verification against it fails with the
quorum-not-registered rejection. -/
theorem claim9_zero_power_set (env : Env) (s : VaultState)
    (validators : List ValidatorInfo) (digest : Hash) (sigs : List Sig)
    (hord : ordered 0 validators = true)
    (hzero : totalPowerOf validators = 0)
    (hfresh : s.availableValidators validators = 0) :
    addValidator s validators =
      .ok { s with availableValidators := upd s.availableValidators validators 0 } ∧
    upd s.availableValidators validators 0 validators = 0 ∧
    addValidator { s with availableValidators := upd s.availableValidators validators 0 } validators =
      .ok { s with availableValidators := upd (upd s.availableValidators validators 0) validators 0 } ∧
    removeValidator { s with availableValidators := upd s.availableValidators validators 0 } validators =
      .error (.requireFail "not set") ∧
    verifyValidatorSignature env
      { s with availableValidators := upd s.availableValidators validators 0 }
      validators digest sigs = .error (.requireFail "validator illegal") := by
  refine ⟨?_, upd_same _ _ _, ?_, ?_, ?_⟩
  · unfold addValidator
    simp [hfresh, hord, hzero]
  · unfold addValidator
    simp [upd_same, hord, hzero]
  · unfold removeValidator
    simp [upd_same]
  · unfold verifyValidatorSignature
    simp [upd_same]

/-- C9 witness: the empty validator set in the empty state. -/
theorem claim9_zero_power_set_witness :
    addValidator s0 ([] : List ValidatorInfo) =
      .ok { s0 with availableValidators := upd s0.availableValidators [] 0 } ∧
    removeValidator { s0 with availableValidators := upd s0.availableValidators [] 0 } [] =
      .error (.requireFail "not set") := by
  have h := claim9_zero_power_set env0 s0 [] 1 [] (by decide) (by decide) (by decide)
  exact ⟨h.1, h.2.2.2.1⟩

/-- C4: for every supported currency and nonzero amount, `deposit` credits the
measured custody delta of the pull, not the requested amount; in particular a
transfer mechanism delivering 95 of a requested 100-unit pull results in a
credited amount of 95. -/
theorem claim4_deposit_delta (env : Env) (s : VaultState) (currency : Addr)
    (amount : Nat) (hsup : supportCurrency s currency = true)
    (hnz : amount ≠ 0) :
    deposit env s currency amount =
      .ok ({ s with custody := upd s.custody currency (s.custody currency + env.erc20Pull currency amount) },
           env.erc20Pull currency amount) ∧
    (env.erc20Pull currency 100 = 95 →
      (deposit env s currency 100).map Prod.snd = .ok 95) := by
  constructor
  · unfold deposit
    simp [hsup, hnz]
  · intro h95
    unfold deposit
    simp [hsup, h95, Except.map]

/-- C4 witness: an environment whose pull delivers 95 of any request, against
the state with currency 5 registered. -/
theorem claim4_deposit_delta_witness :
    (deposit { env0 with erc20Pull := fun _ _ => 95 } sReg 5 100).map Prod.snd =
      .ok 95 :=
  (claim4_deposit_delta { env0 with erc20Pull := fun _ _ => 95 } sReg 5 100
    (by decide) (by decide)).2 rfl

/-- C6 counterexample: currency 5 has no registered descriptor in the empty
state, yet `removeToken` succeeds instead of failing with the not-supported
rejection the claim requires. -/
theorem claim6_counterexample :
    (s0.supportToken 5).currency = 0 ∧
    removeToken s0 5 =
      .ok { s0 with supportToken := upd s0.supportToken 5 Token.empty } := by
  exact ⟨rfl, rfl⟩

/-- C6 amended: `deregister` fails with the zero-address rejection when the
currency is the zero address; for every nonzero currency — registered or not —
it succeeds, clearing the descriptor slot and leaving the accrued fee
balances (and every other table) untouched. -/
theorem claim6_amended_remove_token (s : VaultState) (currency : Addr) :
    (currency = 0 → removeToken s currency = .error .zeroAddress) ∧
    (currency ≠ 0 →
      removeToken s currency =
        .ok { s with supportToken := upd s.supportToken currency Token.empty } ∧
      ∀ s1, removeToken s currency = .ok s1 → s1.fees = s.fees) := by
  constructor
  · intro h
    unfold removeToken
    simp [h]
  · intro h
    refine ⟨by unfold removeToken; simp [h], ?_⟩
    intro s1 h1
    unfold removeToken at h1
    simp only [if_neg h] at h1
    cases h1
    rfl

/-- C6 amended witness: rejection at the zero address, success at the
unregistered currency 5, fee pools untouched. -/
theorem claim6_amended_remove_token_witness :
    removeToken s0 0 = .error .zeroAddress ∧
    removeToken s0 5 =
      .ok { s0 with supportToken := upd s0.supportToken 5 Token.empty } := by
  exact ⟨(claim6_amended_remove_token s0 0).1 rfl,
    ((claim6_amended_remove_token s0 5).2 (by decide)).1⟩

/-- C5 counterexample: currency 5 has an empty fee pool in the empty state;
requesting 7 — an over-request — does not silently pay the available zero, it
reverts with the zero-amount rejection raised by the transfer helper on the
clamped amount. -/
theorem claim5_counterexample :
    s0.fees 5 = 0 ∧ withdrawFee s0 [5] [7] 9 = .error .zeroAmount :=
  ⟨rfl, rfl⟩

/-- A successful outward push: with a nonzero receiver, a nonzero amount and
sufficient custody, both the native and the token branch of the three-argument
transfer helper debit the custody balance by the amount. -/
theorem transferOut_ok (s : VaultState) (dst : Addr) (isNative : Bool)
    (currency : Addr) (amount : Nat) (hr : dst ≠ 0) (ha : amount ≠ 0)
    (hc : amount ≤ s.custody currency) :
    transferOut s dst isNative currency amount =
      .ok { s with custody := upd s.custody currency (s.custody currency - amount) } := by
  unfold transferOut
  rw [if_neg hr, if_neg ha]
  cases isNative <;> simp [Nat.not_lt.mpr hc]

/-- C5 amended: `collectFees` clamps the requested amount to the available
fee pool and, whenever the clamped amount is nonzero, the receiver is nonzero
and custody covers the clamped amount, it pays exactly the clamped amount and
decrements the pool by it (never below zero); over-requesting against a
nonzero pool pays exactly the pool balance and leaves the pool at zero.  When
the clamped amount is zero — an over-request against an empty pool — the
transfer helper rejects with the zero-amount error instead of succeeding. -/
theorem claim5_amended_collect_fees (s : VaultState) (token : Addr)
    (requested : Nat) (receiver : Addr)
    (hr : receiver ≠ 0)
    (hcl : min (s.fees token) requested ≠ 0)
    (hcust : min (s.fees token) requested ≤ s.custody token) :
    (withdrawFee s [token] [requested] receiver =
      .ok { s with fees := upd s.fees token (s.fees token - min (s.fees token) requested), custody := upd s.custody token (s.custody token - min (s.fees token) requested) }) ∧
    (s.fees token ≤ requested →
      ∀ s1, withdrawFee s [token] [requested] receiver = .ok s1 →
        s1.fees token = 0 ∧
        s1.custody token = s.custody token - s.fees token) := by
  have hmin :
      (if s.fees token < requested then s.fees token else requested) =
        min (s.fees token) requested := by
    rcases Nat.lt_or_ge (s.fees token) requested with h | h
    · simp [h, Nat.min_eq_left (Nat.le_of_lt h)]
    · simp [Nat.not_lt.mpr h, Nat.min_eq_right h]
  have hout := transferOut_ok s receiver (token == NATIVE) token
    (min (s.fees token) requested) hr hcl hcust
  have hok :
      withdrawFee s [token] [requested] receiver =
        .ok { s with fees := upd s.fees token (s.fees token - min (s.fees token) requested), custody := upd s.custody token (s.custody token - min (s.fees token) requested) } := by
    unfold withdrawFee
    rw [if_neg (by simp)]
    simp only [List.zip_cons_cons, List.zip_nil_right]
    simp only [withdrawFeeGo]
    rw [hmin, hout]
  refine ⟨hok, fun hover s1 h1 => ?_⟩
  rw [hok] at h1
  cases h1
  have hmin2 : min (s.fees token) requested = s.fees token :=
    Nat.min_eq_left hover
  simp [hmin2, upd_same]

/-- C5 amended witness: pool of 4 at currency 5 with custody 10; requesting 9
pays 4 and zeroes the pool. -/
theorem claim5_amended_collect_fees_witness :
    withdrawFee { s0 with fees := upd s0.fees 5 4, custody := upd s0.custody 5 10 } [5] [9] 7 =
      .ok { { s0 with fees := upd s0.fees 5 4, custody := upd s0.custody 5 10 } with fees := upd (upd s0.fees 5 4) 5 ((upd s0.fees 5 4) 5 - min ((upd s0.fees 5 4) 5) 9), custody := upd (upd s0.custody 5 10) 5 ((upd s0.custody 5 10) 5 - min ((upd s0.fees 5 4) 5) 9) } :=
  (claim5_amended_collect_fees
    { s0 with fees := upd s0.fees 5 4, custody := upd s0.custody 5 10 }
    5 9 7 (by decide) (by decide) (by decide)).1

/-- The valuation formula exactly as the specification writes it, for
comparison with the source-derived `amountUsd`. -/
def valueInUsdSpec (price amount priceDecimals currencyDecimals : Nat) : Nat :=
  price * amount * 10 ^ USD_DECIMALS / 10 ^ (priceDecimals + currencyDecimals)

/-- For an in-range non-negative oracle answer, the `uint256` reinterpretation
is the answer itself. -/
theorem oraclePriceWord_eq (env : Env) (feed : Addr)
    (h0 : 0 ≤ env.oraclePrice feed)
    (hlt : env.oraclePrice feed < 2 ^ 255) :
    oraclePriceWord env feed = (env.oraclePrice feed).toNat := by
  unfold oraclePriceWord
  rw [Int.emod_eq_of_lt h0 (lt_trans hlt (by norm_num))]

/-- C8: for every registered currency and amount, the USD valuation is the
spec's exact integer formula `price * amount * 10 ^ USD_DECIMALS /
10 ^ (priceDecimals + currencyDecimals)`, where the price is the descriptor's
fixed price when `fixedPrice` is set and the fresh oracle answer otherwise
(for any in-range, non-negative oracle answer); and the limit check rejects
with the zero-value error precisely when the computed valuation is zero. -/
theorem claim8_value_in_usd (env : Env) (s : VaultState) (currency : Addr)
    (amount : Nat) :
    ((s.supportToken currency).fixedPrice = true →
      amountUsd env s currency amount =
        valueInUsdSpec (s.supportToken currency).price amount
          (s.supportToken currency).priceDecimals
          (s.supportToken currency).currencyDecimals) ∧
    ((s.supportToken currency).fixedPrice = false →
      0 ≤ env.oraclePrice (s.supportToken currency).priceFeed →
      env.oraclePrice (s.supportToken currency).priceFeed < 2 ^ 255 →
      amountUsd env s currency amount =
        valueInUsdSpec (env.oraclePrice (s.supportToken currency).priceFeed).toNat
          amount (s.supportToken currency).priceDecimals
          (s.supportToken currency).currencyDecimals) ∧
    (checkLimit env s currency amount = .error .zeroAmount ↔
      amountUsd env s currency amount = 0) := by
  refine ⟨?_, ?_, ?_⟩
  · intro hfix
    unfold amountUsd valueInUsdSpec
    simp [hfix]
  · intro hfix h0 hlt
    simp only [amountUsd, valueInUsdSpec, hfix, Bool.false_eq_true, if_false]
    rw [oraclePriceWord_eq env (s.supportToken currency).priceFeed h0 hlt]
  · constructor
    · intro h
      by_contra hnz
      simp only [checkLimit] at h
      rw [if_neg hnz] at h
      by_cases hov :
          s.hourlyLimit <
            s.withdrawPerHours (env.timestamp / 3600) +
              amountUsd env s currency amount
      · rw [if_pos hov] at h
        by_cases hp : s.paused = true
        · rw [if_pos hp] at h
          simp at h
        · rw [if_neg hp] at h
          simp at h
      · rw [if_neg hov] at h
        simp at h
    · intro h
      simp only [checkLimit]
      rw [if_pos h]

/-- C8 witness: the fixed-price descriptor of currency 5 values 3 units at
3 * 10 ^ 8; the zero-value rejection fires at amount 0. -/
theorem claim8_value_in_usd_witness :
    amountUsd env0 sReg 5 3 = valueInUsdSpec 1 3 0 0 ∧
    checkLimit env0 sReg 5 0 = .error .zeroAmount := by
  refine ⟨(claim8_value_in_usd env0 sReg 5 3).1 rfl, ?_⟩
  exact (claim8_value_in_usd env0 sReg 5 0).2.2.mpr (by decide)

/-- When the hour bucket would overflow the hourly limit, the limit check of
an unpaused vault trips the breaker: pause set, bucket untouched, verdict
`false`. -/
theorem checkLimit_defer (env : Env) (s : VaultState) (currency : Addr)
    (amount : Nat) (hp : s.paused = false)
    (husd : amountUsd env s currency amount ≠ 0)
    (hov : s.hourlyLimit <
        s.withdrawPerHours (env.timestamp / 3600) + amountUsd env s currency amount) :
    checkLimit env s currency amount = .ok ({ s with paused := true }, false) := by
  simp only [checkLimit]
  rw [if_neg husd, if_pos hov, if_neg (by simp [hp])]

/-- When the hour bucket plus the valuation stays within the hourly limit,
the limit check admits the request and accumulates the valuation. -/
theorem checkLimit_admit (env : Env) (s : VaultState) (currency : Addr)
    (amount : Nat)
    (husd : amountUsd env s currency amount ≠ 0)
    (hle : s.withdrawPerHours (env.timestamp / 3600) + amountUsd env s currency amount ≤
        s.hourlyLimit) :
    checkLimit env s currency amount =
      .ok ({ s with withdrawPerHours := upd s.withdrawPerHours (env.timestamp / 3600) (s.withdrawPerHours (env.timestamp / 3600) + amountUsd env s currency amount) },
           true) := by
  simp only [checkLimit]
  rw [if_neg husd, if_neg (Nat.not_lt.mpr hle)]

/-- C3: when the current hour bucket plus the request's USD value exceeds the
hourly limit, the limit check of an unpaused vault sets the pause flag,
leaves the bucket untouched and returns `false`; the committee-authorized
withdrawal then completes without error having changed nothing but the pause
flag, so the id stays unprocessed and retryable.  Otherwise the bucket grows
by exactly the USD value and the check returns `true`. -/
theorem claim3_defer_on_limit (env : Env) (s : VaultState) (currency : Addr)
    (amount : Nat) (id : Nat) (validators : List ValidatorInfo)
    (action : WithdrawAction) (sigs : List Sig) :
    (s.paused = false → amountUsd env s currency amount ≠ 0 →
      ((s.hourlyLimit < s.withdrawPerHours (env.timestamp / 3600) + amountUsd env s currency amount →
        checkLimit env s currency amount = .ok ({ s with paused := true }, false)) ∧
       (s.withdrawPerHours (env.timestamp / 3600) + amountUsd env s currency amount ≤ s.hourlyLimit →
        checkLimit env s currency amount =
          .ok ({ s with withdrawPerHours := upd s.withdrawPerHours (env.timestamp / 3600) (s.withdrawPerHours (env.timestamp / 3600) + amountUsd env s currency amount) }, true)))) ∧
    (s.paused = false →
      s.withdrawHistory id = 0 →
      supportCurrency s action.token = true →
      verifyValidatorSignature env s validators (env.mkDigest id action) sigs = .ok () →
      amountUsd env s action.token action.amount ≠ 0 →
      s.hourlyLimit < s.withdrawPerHours (env.timestamp / 3600) + amountUsd env s action.token action.amount →
      withdrawCommittee env s id validators action sigs = .ok { s with paused := true } ∧
        ({ s with paused := true } : VaultState).withdrawHistory id = 0) := by
  constructor
  · intro hp husd
    exact ⟨fun hov => checkLimit_defer env s currency amount hp husd hov,
           fun hle => checkLimit_admit env s currency amount husd hle⟩
  · intro hp h0 hsup hver husd hov
    refine ⟨?_, h0⟩
    simp only [withdrawCommittee]
    rw [if_neg (by simp [hp]), if_neg (by simp [h0]), if_neg (by simp [hsup]),
      hver, checkLimit_defer env s action.token action.amount hp husd hov]
    rfl

/-- C3 witness: currency 5 valued at 10 ^ 8 against the zero hourly limit of
`sReg`; the committee call with a valid quorum signature defers, pausing the
vault and leaving id 1 unprocessed. -/
theorem claim3_defer_on_limit_witness :
    checkLimit env0 sReg 5 1 = .ok ({ sReg with paused := true }, false) ∧
    withdrawCommittee env0 sReg 1 vSet actionFive [9] =
      .ok { sReg with paused := true } := by
  have h := claim3_defer_on_limit env0 sReg 5 1 1 vSet actionFive [9]
  exact ⟨(h.1 rfl (by decide)).1 (by decide),
    (h.2 rfl rfl (by decide) rfl (by decide) (by decide)).1⟩

/-- An environment whose external withdraw validator rejects every request. -/
def envReject : Env :=
  { env0 with withdrawCheck := fun _ _ _ => .error .zeroAddress }

/-- A user withdrawal request: amount 1, declared maximum fee 0, receiver 7. -/
def uReq : UserRequestInfo := { amount := 1, fee := 0, receiver := 7 }

/-- The business payload matching `tokenFive`: id 1, decimals 0, name hash 0. -/
def bInfo : BusinessInfo := { withdrawId := 1, decimals := 0, tokenNameHash := 0 }

/-- `sReg` with a raised hourly limit, so the rate-limit gate admits. -/
def sRegHi : VaultState := { sReg with hourlyLimit := 1000000000 }

/-- C7 counterexample: the external withdraw validator rejects this very
request unconditionally, yet the user-co-signed withdrawal completes without
error because the rate-limit gate trips first and returns before the external
authorization check is ever consulted — so that check is not performed before
the rate-limit gate. -/
theorem claim7_counterexample :
    envReject.withdrawCheck uReq bInfo 0 = .error .zeroAddress ∧
    withdrawUser envReject sReg 5 0 uReq bInfo 0 =
      .ok { sReg with paused := true } :=
  ⟨rfl, rfl⟩

/-- C7 amended: in the user-co-signed withdrawal, the registered-decimals and
name-hash checks are performed before the rate-limit gate, but the external
withdraw-authorization check is consulted only after the gate admits the
request: a gate deferral returns without consulting it, and when the gate
admits, the external check's rejection aborts the operation. -/
theorem claim7_amended_check_order (env : Env) (s : VaultState)
    (tokenAddress : Addr) (realFee : Nat) (u : UserRequestInfo)
    (b : BusinessInfo) (si : SigInfo)
    (hp : s.paused = false) (h0 : s.withdrawHistory b.withdrawId = 0) :
    (((s.supportToken tokenAddress).currency = 0 ∨
        (s.supportToken tokenAddress).currencyDecimals ≠ b.decimals) →
      withdrawUser env s tokenAddress realFee u b si =
        .error (.currencyNotSupport tokenAddress)) ∧
    ((s.supportToken tokenAddress).currency ≠ 0 →
      (s.supportToken tokenAddress).currencyDecimals = b.decimals →
      s.tokenHashMap tokenAddress ≠ b.tokenNameHash →
      withdrawUser env s tokenAddress realFee u b si =
        .error (.currencyNameNotSupport tokenAddress b.tokenNameHash)) ∧
    ((s.supportToken tokenAddress).currency ≠ 0 →
      (s.supportToken tokenAddress).currencyDecimals = b.decimals →
      s.tokenHashMap tokenAddress = b.tokenNameHash →
      realFee ≤ u.fee →
      amountUsd env s tokenAddress u.amount ≠ 0 →
      s.hourlyLimit < s.withdrawPerHours (env.timestamp / 3600) + amountUsd env s tokenAddress u.amount →
      withdrawUser env s tokenAddress realFee u b si = .ok { s with paused := true }) ∧
    ((s.supportToken tokenAddress).currency ≠ 0 →
      (s.supportToken tokenAddress).currencyDecimals = b.decimals →
      s.tokenHashMap tokenAddress = b.tokenNameHash →
      realFee ≤ u.fee →
      amountUsd env s tokenAddress u.amount ≠ 0 →
      s.withdrawPerHours (env.timestamp / 3600) + amountUsd env s tokenAddress u.amount ≤ s.hourlyLimit →
      ∀ e, env.withdrawCheck u b si = .error e →
        withdrawUser env s tokenAddress realFee u b si = .error e) := by
  refine ⟨?_, ?_, ?_, ?_⟩
  · intro hcs
    simp only [withdrawUser]
    rw [if_neg (by simp [hp]), if_neg (by simp [h0]), if_pos hcs]
  · intro hc1 hc2 hname
    simp only [withdrawUser]
    rw [if_neg (by simp [hp]), if_neg (by simp [h0]),
      if_neg (by simp [hc1, hc2]), if_pos hname]
  · intro hc1 hc2 hname hfee husd hov
    simp only [withdrawUser]
    rw [if_neg (by simp [hp]), if_neg (by simp [h0]),
      if_neg (by simp [hc1, hc2]), if_neg (by simp [hname]),
      if_neg (Nat.not_lt.mpr hfee),
      checkLimit_defer env s tokenAddress u.amount hp husd hov]
    rfl
  · intro hc1 hc2 hname hfee husd hle e hcheck
    simp only [withdrawUser]
    rw [if_neg (by simp [hp]), if_neg (by simp [h0]),
      if_neg (by simp [hc1, hc2]), if_neg (by simp [hname]),
      if_neg (Nat.not_lt.mpr hfee),
      checkLimit_admit env s tokenAddress u.amount husd hle, hcheck]
    rfl

/-- C7 amended witness: with the always-rejecting validator, the zero-limit
state defers without consulting it, and the raised-limit state admits and
propagates its rejection. -/
theorem claim7_amended_check_order_witness :
    withdrawUser envReject sReg 5 0 uReq bInfo 0 =
      .ok { sReg with paused := true } ∧
    withdrawUser envReject sRegHi 5 0 uReq bInfo 0 = .error .zeroAddress := by
  refine ⟨(claim7_amended_check_order envReject sReg 5 0 uReq bInfo 0 rfl rfl).2.2.1
      (by decide) (by decide) (by decide) (by decide) (by decide) (by decide), ?_⟩
  exact (claim7_amended_check_order envReject sRegHi 5 0 uReq bInfo 0 rfl rfl).2.2.2
    (by decide) (by decide) (by decide) (by decide) (by decide) (by decide)
    .zeroAddress rfl

/-- With a fee exceeding the amount, the four-argument transfer helper never
succeeds: it aborts with the zero-address rejection or the checked-subtraction
underflow panic. -/
theorem transferWithFee_no_ok (s : VaultState) (dst currency : Addr)
    (amount fee : Nat) (hlt : amount < fee) (s1 : VaultState) :
    transferWithFee s dst currency amount fee ≠ .ok s1 := by
  simp only [transferWithFee]
  by_cases hd : dst = 0
  · rw [if_pos hd]
    simp
  · rw [if_neg hd, if_pos hlt]
    simp

/-- A `false` verdict of the limit check pins down the resulting state: the
breaker tripped, and nothing but the pause flag changed. -/
theorem checkLimit_ok_false (env : Env) (s : VaultState) (currency : Addr)
    (amount : Nat) (s1 : VaultState)
    (h : checkLimit env s currency amount = .ok (s1, false)) :
    s1 = { s with paused := true } := by
  simp only [checkLimit] at h
  split at h
  · simp at h
  · split at h
    · split at h
      · simp at h
      · simp only [Except.ok.injEq, Prod.mk.injEq] at h
        exact h.1.symm
    · simp at h

/-- C10: both withdrawal variants implicitly require the fee to stay within
the amount: with a declared fee above the amount, the payout helper's checked
subtraction aborts with an underflow panic, so whenever such a call does not
revert (the rate-limit deferral), custody, the fee pools and the withdrawal
history are all left unchanged — no transfer, no fee accrual, no durable
consumption of the id. -/
theorem claim10_fee_exceeds_amount (env : Env) (s : VaultState)
    (dst currency : Addr) (amount fee : Nat) (id : Nat)
    (validators : List ValidatorInfo) (action : WithdrawAction)
    (sigs : List Sig) (tokenAddress : Addr) (realFee : Nat)
    (u : UserRequestInfo) (b : BusinessInfo) (si : SigInfo) :
    (dst ≠ 0 → amount < fee →
      transferWithFee s dst currency amount fee = .error .arithUnderflow) ∧
    (action.amount < action.fee →
      ∀ s1, withdrawCommittee env s id validators action sigs = .ok s1 →
        s1.custody = s.custody ∧ s1.fees = s.fees ∧
          s1.withdrawHistory = s.withdrawHistory) ∧
    (u.amount < realFee →
      ∀ s1, withdrawUser env s tokenAddress realFee u b si = .ok s1 →
        s1.custody = s.custody ∧ s1.fees = s.fees ∧
          s1.withdrawHistory = s.withdrawHistory) := by
  refine ⟨?_, ?_, ?_⟩
  · intro hd hlt
    simp only [transferWithFee]
    rw [if_neg hd, if_pos hlt]
  · intro hlt s1 h
    simp only [withdrawCommittee] at h
    split at h
    · simp at h
    · split at h
      · simp at h
      · split at h
        · simp at h
        · split at h
          · simp at h
          · split at h
            · simp at h
            · rename_i s2 admitted heq
              split at h
              · exact absurd h (transferWithFee_no_ok _ _ _ _ _ hlt s1)
              · simp only [Except.ok.injEq] at h
                subst h
                rename_i hadm
                simp only [Bool.not_eq_true] at hadm
                subst hadm
                rw [checkLimit_ok_false env s action.token action.amount s2 heq]
                exact ⟨rfl, rfl, rfl⟩
  · intro hlt s1 h
    simp only [withdrawUser] at h
    split at h
    · simp at h
    · split at h
      · simp at h
      · split at h
        · simp at h
        · split at h
          · simp at h
          · split at h
            · simp at h
            · split at h
              · simp at h
              · rename_i s2 admitted heq
                split at h
                · split at h
                  · simp at h
                  · split at h
                    · simp at h
                    · exact absurd h (transferWithFee_no_ok _ _ _ _ _ hlt s1)
                · simp only [Except.ok.injEq] at h
                  subst h
                  rename_i hadm
                  simp only [Bool.not_eq_true] at hadm
                  subst hadm
                  rw [checkLimit_ok_false env s tokenAddress u.amount s2 heq]
                  exact ⟨rfl, rfl, rfl⟩

/-- C10 witness: fee 5 against amount 3 makes the payout helper panic; and the
deferring committee call with fee above amount changes no balances, pools or
history. -/
theorem claim10_fee_exceeds_amount_witness :
    transferWithFee s0 7 5 3 5 = .error .arithUnderflow ∧
    (({ sReg with paused := true } : VaultState).custody = sReg.custody ∧
      ({ sReg with paused := true } : VaultState).fees = sReg.fees ∧
      ({ sReg with paused := true } : VaultState).withdrawHistory = sReg.withdrawHistory) := by
  have h := claim10_fee_exceeds_amount env0 sReg 7 5 3 5 1 vSet
    { actionFive with fee := 9 } [9] 5 0 uReq bInfo 0
  refine ⟨h.1 (by decide) (by decide), ?_⟩
  exact h.2.1 (by decide) { sReg with paused := true } rfl

/-! Preservation of the withdrawal history across every entry point: the
replay table is written only at a slot whose current marker is zero, so a
non-zero marker is never reset. -/

theorem map_fst_ok {e : Except VaultError (VaultState × Nat)} {s1 : VaultState}
    (h : e.map Prod.fst = .ok s1) : ∃ n, e = .ok (s1, n) := by
  cases e with
  | error err => simp [Except.map] at h
  | ok p =>
    cases p with
    | mk a n =>
      simp only [Except.map, Except.ok.injEq] at h
      exact ⟨n, by rw [h]⟩

theorem transferOut_history (s : VaultState) (dst : Addr) (isNative : Bool)
    (currency : Addr) (amount : Nat) (s1 : VaultState)
    (h : transferOut s dst isNative currency amount = .ok s1) :
    s1.withdrawHistory = s.withdrawHistory := by
  simp only [transferOut] at h
  split at h
  · simp at h
  · split at h
    · simp at h
    · split at h
      · split at h
        · simp at h
        · simp only [Except.ok.injEq] at h
          subst h
          rfl
      · split at h
        · simp at h
        · simp only [Except.ok.injEq] at h
          subst h
          rfl

theorem withdrawFeeGo_history (receiver : Addr) :
    ∀ (pairs : List (Addr × Nat)) (s s1 : VaultState),
      withdrawFeeGo receiver s pairs = .ok s1 →
      s1.withdrawHistory = s.withdrawHistory := by
  intro pairs
  induction pairs with
  | nil =>
    intro s s1 h
    simp only [withdrawFeeGo, Except.ok.injEq] at h
    subst h
    rfl
  | cons p rest ih =>
    intro s s1 h
    cases p with
    | mk token requested =>
      simp only [withdrawFeeGo] at h
      split at h
      · simp at h
      · rename_i s2 heq
        have h2 := transferOut_history s receiver (token == NATIVE) token _ s2 heq
        exact (ih _ _ h).trans h2

theorem withdrawFee_history (s : VaultState) (tokens : List Addr)
    (amounts : List Nat) (receiver : Addr) (s1 : VaultState)
    (h : withdrawFee s tokens amounts receiver = .ok s1) :
    s1.withdrawHistory = s.withdrawHistory := by
  simp only [withdrawFee] at h
  split at h
  · simp at h
  · exact withdrawFeeGo_history receiver _ s s1 h

theorem addToken_history (env : Env) (s : VaultState) (currency priceFeed : Addr)
    (price : Nat) (fixedPrice : Bool) (priceDecimals currencyDecimals : Nat)
    (s1 : VaultState)
    (h : addToken env s currency priceFeed price fixedPrice priceDecimals currencyDecimals = .ok s1) :
    s1.withdrawHistory = s.withdrawHistory := by
  simp only [addToken] at h
  split at h
  · simp at h
  · split at h
    · simp at h
    · split at h
      · simp only [Except.ok.injEq] at h
        subst h
        rfl
      · split at h
        · simp at h
        · split at h
          · simp at h
          · simp only [Except.ok.injEq] at h
            subst h
            rfl

theorem addTokenNamed_history (env : Env) (s : VaultState)
    (currency priceFeed : Addr) (price : Nat) (fixedPrice : Bool)
    (priceDecimals currencyDecimals : Nat) (nameHash : Hash) (s1 : VaultState)
    (h : addTokenNamed env s currency priceFeed price fixedPrice priceDecimals currencyDecimals nameHash = .ok s1) :
    s1.withdrawHistory = s.withdrawHistory := by
  simp only [addTokenNamed] at h
  split at h
  · simp at h
  · rename_i s2 heq
    simp only [Except.ok.injEq] at h
    subst h
    exact addToken_history env s _ _ _ _ _ _ s2 heq

theorem deposit_history (env : Env) (s : VaultState) (currency : Addr)
    (amount : Nat) (s1 : VaultState) (n : Nat)
    (h : deposit env s currency amount = .ok (s1, n)) :
    s1.withdrawHistory = s.withdrawHistory := by
  simp only [deposit] at h
  split at h
  · simp at h
  · split at h
    · simp at h
    · simp only [Except.ok.injEq, Prod.mk.injEq] at h
      rw [← h.1]

theorem depositNative_history (s : VaultState) (msgValue : Nat)
    (s1 : VaultState) (n : Nat) (h : depositNative s msgValue = .ok (s1, n)) :
    s1.withdrawHistory = s.withdrawHistory := by
  simp only [depositNative] at h
  split at h
  · simp at h
  · split at h
    · simp at h
    · simp only [Except.ok.injEq, Prod.mk.injEq] at h
      rw [← h.1]

theorem depositFor_history (env : Env) (s : VaultState)
    (currency forAddress : Addr) (amount msgValue : Nat) (s1 : VaultState)
    (n : Nat) (h : depositFor env s currency forAddress amount msgValue = .ok (s1, n)) :
    s1.withdrawHistory = s.withdrawHistory := by
  simp only [depositFor] at h
  split at h
  · simp at h
  · split at h
    · simp at h
    · split at h
      · split at h
        · simp at h
        · simp only [Except.ok.injEq, Prod.mk.injEq] at h
          rw [← h.1]
      · split at h
        · simp at h
        · split at h
          · simp at h
          · simp only [Except.ok.injEq, Prod.mk.injEq] at h
            rw [← h.1]

theorem depositUSDF_history (env : Env) (s : VaultState)
    (usdtAmount minUsdfAmount : Nat) (s1 : VaultState) (n : Nat)
    (h : depositUSDF env s usdtAmount minUsdfAmount = .ok (s1, n)) :
    s1.withdrawHistory = s.withdrawHistory := by
  simp only [depositUSDF] at h
  split at h
  · simp at h
  · split at h
    · simp at h
    · split at h
      · simp at h
      · simp only [Except.ok.injEq, Prod.mk.injEq] at h
        rw [← h.1]

theorem depositAsBNB_history (env : Env) (s : VaultState) (currency : Addr)
    (tokenAmount minAsBnbAmount msgValue : Nat) (s1 : VaultState) (n : Nat)
    (h : depositAsBNB env s currency tokenAmount minAsBnbAmount msgValue = .ok (s1, n)) :
    s1.withdrawHistory = s.withdrawHistory := by
  simp only [depositAsBNB] at h
  split at h
  · simp at h
  · split at h
    · simp at h
    · split at h
      · simp at h
      · rename_i s2 received heq
        split at h
        · simp at h
        · split at h
          · simp at h
          · simp only [Except.ok.injEq, Prod.mk.injEq] at h
            rw [← h.1]
            have hs2 : s2.withdrawHistory = s.withdrawHistory := by
              split at heq
              · split at heq
                · simp at heq
                · simp only [Except.ok.injEq, Prod.mk.injEq] at heq
                  rw [← heq.1]
              · split at heq
                · split at heq
                  · simp at heq
                  · simp only [Except.ok.injEq, Prod.mk.injEq] at heq
                    rw [← heq.1]
                · simp at heq
            exact hs2

theorem checkLimit_ok_history (env : Env) (s : VaultState) (currency : Addr)
    (amount : Nat) (s1 : VaultState) (verdict : Bool)
    (h : checkLimit env s currency amount = .ok (s1, verdict)) :
    s1.withdrawHistory = s.withdrawHistory := by
  simp only [checkLimit] at h
  split at h
  · simp at h
  · split at h
    · split at h
      · simp at h
      · simp only [Except.ok.injEq, Prod.mk.injEq] at h
        rw [← h.1]
    · simp only [Except.ok.injEq, Prod.mk.injEq] at h
      rw [← h.1]

theorem transferWithFee_history (s : VaultState) (dst currency : Addr)
    (amount fee : Nat) (s1 : VaultState)
    (h : transferWithFee s dst currency amount fee = .ok s1) :
    s1.withdrawHistory = s.withdrawHistory := by
  simp only [transferWithFee] at h
  split at h
  · simp at h
  · split at h
    · simp at h
    · split at h
      · simp at h
      · simp only [Except.ok.injEq] at h
        subst h
        rfl

theorem withdrawCommittee_preserves (env : Env) (s : VaultState) (id : Nat)
    (validators : List ValidatorInfo) (action : WithdrawAction)
    (sigs : List Sig) (s1 : VaultState)
    (h : withdrawCommittee env s id validators action sigs = .ok s1)
    (j : Nat) (hj : s.withdrawHistory j ≠ 0) : s1.withdrawHistory j ≠ 0 := by
  simp only [withdrawCommittee] at h
  split at h
  · simp at h
  · split at h
    · simp at h
    · rename_i hh
      split at h
      · simp at h
      · split at h
        · simp at h
        · split at h
          · simp at h
          · rename_i s2 admitted heq
            split at h
            · have hch := checkLimit_ok_history env s action.token action.amount s2 _ heq
              have ht := transferWithFee_history _ _ _ _ _ _ h
              rw [ht]
              show upd s2.withdrawHistory id env.blockNumber j ≠ 0
              by_cases hji : j = id
              · subst hji
                exact absurd (not_not.mp hh) hj
              · rw [upd_ne _ _ _ _ hji, hch]
                exact hj
            · simp only [Except.ok.injEq] at h
              subst h
              rename_i hadm
              simp only [Bool.not_eq_true] at hadm
              subst hadm
              rw [checkLimit_ok_false env s action.token action.amount s2 heq]
              exact hj

theorem withdrawUser_preserves (env : Env) (s : VaultState)
    (tokenAddress : Addr) (realFee : Nat) (u : UserRequestInfo)
    (b : BusinessInfo) (si : SigInfo) (s1 : VaultState)
    (h : withdrawUser env s tokenAddress realFee u b si = .ok s1)
    (j : Nat) (hj : s.withdrawHistory j ≠ 0) : s1.withdrawHistory j ≠ 0 := by
  simp only [withdrawUser] at h
  split at h
  · simp at h
  · split at h
    · simp at h
    · rename_i hh
      split at h
      · simp at h
      · split at h
        · simp at h
        · split at h
          · simp at h
          · split at h
            · simp at h
            · rename_i s2 admitted heq
              split at h
              · split at h
                · simp at h
                · rename_i userDigest hcheck
                  split at h
                  · simp at h
                  · have hch := checkLimit_ok_history env s tokenAddress u.amount s2 _ heq
                    have ht := transferWithFee_history _ _ _ _ _ _ h
                    rw [ht]
                    show upd s2.withdrawHistory b.withdrawId env.blockNumber j ≠ 0
                    by_cases hji : j = b.withdrawId
                    · subst hji
                      exact absurd (not_not.mp hh) hj
                    · rw [upd_ne _ _ _ _ hji, hch]
                      exact hj
              · simp only [Except.ok.injEq] at h
                subst h
                rename_i hadm
                simp only [Bool.not_eq_true] at hadm
                subst hadm
                rw [checkLimit_ok_false env s tokenAddress u.amount s2 heq]
                exact hj

theorem cancelWithdraw_preserves (env : Env) (s : VaultState)
    (withdrawId : Nat) (userDigest : Hash) (s1 : VaultState)
    (h : cancelWithdraw env s withdrawId userDigest = .ok s1)
    (j : Nat) (hj : s.withdrawHistory j ≠ 0) : s1.withdrawHistory j ≠ 0 := by
  simp only [cancelWithdraw] at h
  split at h
  · simp at h
  · rename_i hh
    have hgoal : upd s.withdrawHistory withdrawId env.blockNumber j ≠ 0 := by
      by_cases hji : j = withdrawId
      · subst hji
        exact absurd (not_not.mp hh) hj
      · rw [upd_ne _ _ _ _ hji]
        exact hj
    split at h
    · simp only [Except.ok.injEq] at h
      subst h
      exact hgoal
    · simp only [Except.ok.injEq] at h
      subst h
      exact hgoal

/-- Every modelled entry point preserves a non-zero withdrawal-history marker:
no operation resets a processed id back to unprocessed. -/
theorem step_preserves_history (env : Env) (op : VaultOp) (s s1 : VaultState)
    (h : step env op s = .ok s1) (j : Nat) (hj : s.withdrawHistory j ≠ 0) :
    s1.withdrawHistory j ≠ 0 := by
  cases op with
  | opPause =>
    simp only [step, pauseOp] at h
    split at h
    · simp at h
    · simp only [Except.ok.injEq] at h
      subst h
      exact hj
  | opUnpause =>
    simp only [step, unpauseOp] at h
    split at h
    · simp only [Except.ok.injEq] at h
      subst h
      exact hj
    · simp at h
  | opUpdateHourlyLimit n =>
    simp only [step, updateHourlyLimit] at h
    split at h
    · simp at h
    · simp only [Except.ok.injEq] at h
      subst h
      exact hj
  | opAddValidator vs =>
    simp only [step, addValidator] at h
    split at h
    · simp at h
    · split at h
      · simp at h
      · simp only [Except.ok.injEq] at h
        subst h
        exact hj
  | opRemoveValidator vs =>
    simp only [step, removeValidator] at h
    split at h
    · simp at h
    · simp only [Except.ok.injEq] at h
      subst h
      exact hj
  | opWithdrawFee tokens amounts receiver =>
    simp only [step] at h
    rw [withdrawFee_history s tokens amounts receiver s1 h]
    exact hj
  | opAddToken c pf price fixed pd cd =>
    simp only [step] at h
    rw [addToken_history env s c pf price fixed pd cd s1 h]
    exact hj
  | opAddTokenNamed c pf price fixed pd cd nh =>
    simp only [step] at h
    rw [addTokenNamed_history env s c pf price fixed pd cd nh s1 h]
    exact hj
  | opRemoveToken c =>
    simp only [step, removeToken] at h
    split at h
    · simp at h
    · simp only [Except.ok.injEq] at h
      subst h
      exact hj
  | opSetTokenHash t nh =>
    simp only [step, setTokenHash] at h
    split at h
    · simp at h
    · simp only [Except.ok.injEq] at h
      subst h
      exact hj
  | opReceiveNative v =>
    simp only [step, receiveNative] at h
    split at h
    · simp at h
    · simp only [Except.ok.injEq] at h
      subst h
      exact hj
  | opDeposit c a =>
    simp only [step] at h
    obtain ⟨n, he⟩ := map_fst_ok h
    rw [deposit_history env s c a s1 n he]
    exact hj
  | opDepositNative v =>
    simp only [step] at h
    obtain ⟨n, he⟩ := map_fst_ok h
    rw [depositNative_history s v s1 n he]
    exact hj
  | opDepositFor c f a v =>
    simp only [step] at h
    obtain ⟨n, he⟩ := map_fst_ok h
    rw [depositFor_history env s c f a v s1 n he]
    exact hj
  | opDepositUSDF a m =>
    simp only [step] at h
    obtain ⟨n, he⟩ := map_fst_ok h
    rw [depositUSDF_history env s a m s1 n he]
    exact hj
  | opDepositAsBNB c t m v =>
    simp only [step] at h
    obtain ⟨n, he⟩ := map_fst_ok h
    rw [depositAsBNB_history env s c t m v s1 n he]
    exact hj
  | opWithdrawCommittee id vs action sigs =>
    exact withdrawCommittee_preserves env s id vs action sigs s1 h j hj
  | opWithdrawUser t rf u b si =>
    exact withdrawUser_preserves env s t rf u b si s1 h j hj
  | opCancelWithdraw id d =>
    exact cancelWithdraw_preserves env s id d s1 h j hj

/-- C1: a non-zero withdrawal record is terminal.  A committee-authorized
withdrawal against a consumed id fails with the already-withdrawn rejection
when the vault is unpaused, and can never succeed at all — in particular it
cannot pay out again, so the custody balance after the failed second call is
the balance after the first (a rejected call is a reverted transaction);
cancellation of a consumed id fails with the already-withdrawn error; and no
modelled entry point resets a non-zero record back to zero. -/
theorem claim1_record_terminal (env : Env) (s : VaultState) (id : Nat)
    (validators : List ValidatorInfo) (action : WithdrawAction)
    (sigs : List Sig) (userDigest : Hash)
    (h : s.withdrawHistory id ≠ 0) :
    (s.paused = false →
      withdrawCommittee env s id validators action sigs =
        .error (.requireFail "already withdraw")) ∧
    (∀ s1, withdrawCommittee env s id validators action sigs ≠ .ok s1) ∧
    cancelWithdraw env s id userDigest = .error (.alreadyWithdraw id) ∧
    (∀ op s1, step env op s = .ok s1 → s1.withdrawHistory id ≠ 0) := by
  refine ⟨?_, ?_, ?_, ?_⟩
  · intro hp
    simp only [withdrawCommittee]
    rw [if_neg (by simp [hp]), if_pos h]
  · intro s1
    simp only [withdrawCommittee]
    by_cases hp : s.paused = true
    · rw [if_pos hp]
      simp
    · rw [if_neg hp, if_pos h]
      simp
  · simp only [cancelWithdraw]
    rw [if_pos h]
  · intro op s1 hstep
    exact step_preserves_history env op s s1 hstep id h

/-- C1 witness: with id 1 marked at block 6, the committee retry is rejected
as already withdrawn, cancellation is rejected likewise, and a pause
transition keeps the marker non-zero. -/
theorem claim1_record_terminal_witness :
    withdrawCommittee env0 { sReg with withdrawHistory := upd sReg.withdrawHistory 1 6 } 1 vSet actionFive [9] =
      .error (.requireFail "already withdraw") ∧
    cancelWithdraw env0 { sReg with withdrawHistory := upd sReg.withdrawHistory 1 6 } 1 0 =
      .error (.alreadyWithdraw 1) ∧
    ({ { sReg with withdrawHistory := upd sReg.withdrawHistory 1 6 } with paused := true } : VaultState).withdrawHistory 1 ≠ 0 := by
  have h := claim1_record_terminal env0
    { sReg with withdrawHistory := upd sReg.withdrawHistory 1 6 } 1 vSet
    actionFive [9] 0 (by decide)
  exact ⟨h.1 rfl, h.2.2.1, h.2.2.2 .opPause _ rfl⟩

end AstherusVault
